import Mathlib

/- Verification of the position-lifecycle engine in
   src/src/core/TradingEngine.ts (class TradingEngine), with the error type
   from src/src/utils/logger.ts and the record shapes from
   src/src/types/types.ts.

   Shallow embedding conventions:
   - JavaScript numbers are modelled by exact rationals (ℚ).  The one place
     where IEEE special values are load-bearing — calculateVolatility
     dividing by returns.length when the returns list is empty — is modelled
     by JsNum, a rational extended with a NaN point.
   - The JS Map holding active positions, and the database keyed by position
     id, are modelled by insertion-ordered association lists with unique
     keys (jsSet / jsDelete / jsGet below).
   - External collaborators (price feed, execution venue, Math.log,
     Math.sqrt, crypto.randomUUID, the AI confidence score, the wallet
     balance) are function parameters.
   - Methods that are called in TradingEngine.ts but have no body anywhere
     in the repository (adjustPositionLevels, validateTradingSignal, the
     updateStopLoss / updateTakeProfit setters) are modelled from the spec;
     each such definition is marked "Modelled from the spec" in its doc
     comment. -/

/-- Result of a JS numeric expression inside calculateVolatility: a finite
value (exact rational) or NaN.  Infinities are not representable: in the
embedded code the only division whose denominator can be zero (an empty
returns list) also has numerator exactly 0 (the fold of the empty list), and
0/0 is NaN in JS, so infinities never arise on these code paths. -/
inductive JsNum where
  | num (q : ℚ)
  | nan
deriving DecidableEq, Repr

def jadd : JsNum → JsNum → JsNum
  | JsNum.num a, JsNum.num b => JsNum.num (a + b)
  | _, _ => JsNum.nan

def jsub : JsNum → JsNum → JsNum
  | JsNum.num a, JsNum.num b => JsNum.num (a - b)
  | _, _ => JsNum.nan

def jmul : JsNum → JsNum → JsNum
  | JsNum.num a, JsNum.num b => JsNum.num (a * b)
  | _, _ => JsNum.nan

/-- JS division with 0/0 = NaN.  (A nonzero numerator over zero would be an
infinity in JS; unreachable here, see the comment on JsNum.) -/
def jdiv : JsNum → JsNum → JsNum
  | JsNum.num a, JsNum.num b => if b = 0 then JsNum.nan else JsNum.num (a / b)
  | _, _ => JsNum.nan

/-- JS strict greater-than: every comparison involving NaN is false. -/
def jgt : JsNum → JsNum → Bool
  | JsNum.num a, JsNum.num b => decide (b < a)
  | _, _ => false

/-- Underlying rational of a finite JsNum (only read under a jgt guard that
rules NaN out). -/
def jval : JsNum → ℚ
  | JsNum.num q => q
  | JsNum.nan => 0

/-- The engine-tunable configuration surface: config.trading together with
the PositionConfig fields TradingEngine copies out of it. -/
structure TradingConfig where
  minConfidenceScore : ℚ
  stopLossPercentage : ℚ
  takeProfitPercentage : ℚ
  maxPositions : ℕ
  maxPositionSizeSOL : ℚ
  minPositionSizeSOL : ℚ
  positionSizePercentage : ℚ
  maxPositionSizePercentage : ℚ
  trailStopActivationPercentage : ℚ
  trailStopDistance : ℚ
  volatilityThreshold : ℚ
  volatilityTPMultiplier : ℚ
deriving DecidableEq, Repr

/-- PositionStatus from types.ts. -/
inductive PositionStatus where
  | active
  | closed
  | force_closed
deriving DecidableEq, Repr

/-- PositionMetadata from types.ts (riskReward is riskRewardRatio in the
source; the optional extrema fields are never written by the engine and are
omitted). -/
structure PositionMetadata where
  confidenceScore : ℚ
  initialStopLoss : ℚ
  initialTakeProfit : ℚ
  riskReward : ℚ
deriving DecidableEq, Repr

/-- Position from types.ts.  Timestamps are modelled as rationals. -/
structure Position where
  id : String
  tokenAddress : String
  entryPrice : ℚ
  quantity : ℚ
  stopLoss : ℚ
  takeProfit : ℚ
  currentPrice : ℚ
  unrealizedPnL : ℚ
  pnlPercentage : ℚ
  entryTimestamp : ℚ
  lastUpdated : ℚ
  tradeSignature : String
  status : PositionStatus
  exitPrice : Option ℚ
  exitTimestamp : Option ℚ
  realizedPnL : Option ℚ
  closeReason : Option String
  metadata : PositionMetadata
deriving DecidableEq, Repr

inductive OrderType where
  | entry
  | exit
deriving DecidableEq, Repr

/-- TradingSignal from types.ts.  stopLoss/takeProfit are declared required
there, but the exit signal built by closePosition omits both (undefined at
runtime), hence Option. -/
structure TradingSignal where
  tokenAddress : String
  type : OrderType
  price : ℚ
  quantity : ℚ
  confidence : ℚ
  stopLoss : Option ℚ
  takeProfit : Option ℚ
  timestamp : ℚ
  reason : Option String
deriving DecidableEq, Repr

/-- FailedTrade from types.ts. -/
structure FailedTrade where
  tokenAddress : String
  type : OrderType
  price : ℚ
  quantity : ℚ
  timestamp : ℚ
  error : String
  errorCode : Option String
deriving DecidableEq, Repr

/-- TradeExecutionResult from types.ts: what the execution venue reports. -/
structure TradeExecutionResult where
  success : Bool
  signature : Option String
  error : Option String
  timestamp : ℚ
  fees : Option ℚ
  slippage : Option ℚ
deriving DecidableEq, Repr

/-- The fields of a thrown error object as the engine reads them:
handleFailedTrade persists error.message and error.code.  TradingError
(logger.ts) passes only its message to CustomError, so its code is
undefined; the wrapped cause is kept in originalError, which no persistence
path ever reads. -/
structure JsError where
  message : String
  code : Option String
  originalError : Option String
deriving DecidableEq, Repr

/-- TradingError construction (logger.ts lines 97-105): message set, code
left undefined, the cause stored only in originalError. -/
def mkTradingError (message : String) (cause : Option String) : JsError :=
  { message := message, code := none, originalError := cause }

inductive Direction where
  | long
  | short
deriving DecidableEq, Repr

/-- calculateStopLoss (TradingEngine.ts lines 683-688). -/
def calculateStopLoss (cfg : TradingConfig) (entryPrice : ℚ) (d : Direction) : ℚ :=
  match d with
  | Direction.long => entryPrice * (1 - cfg.stopLossPercentage)
  | Direction.short => entryPrice * (1 + cfg.stopLossPercentage)

/-- calculateTakeProfit (lines 690-695). -/
def calculateTakeProfit (cfg : TradingConfig) (entryPrice : ℚ) (d : Direction) : ℚ :=
  match d with
  | Direction.long => entryPrice * (1 + cfg.takeProfitPercentage)
  | Direction.short => entryPrice * (1 - cfg.takeProfitPercentage)

/-- calculateDynamicTakeProfit (lines 697-702). -/
def calculateDynamicTakeProfit (cfg : TradingConfig) (p : Position) (volatility : ℚ) : ℚ :=
  let baseTP := p.entryPrice * (1 + cfg.takeProfitPercentage)
  let volatilityAdjustment := volatility * cfg.volatilityTPMultiplier
  baseTP * (1 + volatilityAdjustment)

/-- updatePositionMetrics (lines 171-193), as the refreshed position value it
stores in the map, persists, and emits as positionUpdate. -/
def updatePositionMetrics (p : Position) (currentPrice now : ℚ) : Position :=
  { p with
      currentPrice := currentPrice,
      unrealizedPnL := (currentPrice - p.entryPrice) * p.quantity,
      pnlPercentage := (currentPrice - p.entryPrice) / p.entryPrice * 100,
      lastUpdated := now }

/-- The loop of calculateVolatility building the returns array: for each i in
[1, prices.length), Math.log(prices[i] / prices[i-1]).  jlog abstracts
Math.log composed with the JS division, taking numerator then denominator. -/
def logReturns (jlog : ℚ → ℚ → JsNum) : List ℚ → List JsNum
  | [] => []
  | [_] => []
  | a :: b :: rest => jlog b a :: logReturns jlog (b :: rest)

/-- calculateVolatility (lines 241-258): mean and variance of the
log-returns (both divided by returns.length with no emptiness guard), then
the square root.  jsqrt abstracts Math.sqrt, which maps NaN to NaN in JS. -/
def calculateVolatility (jlog : ℚ → ℚ → JsNum) (jsqrt : JsNum → JsNum)
    (prices : List ℚ) : JsNum :=
  let returns := logReturns jlog prices
  let mean := jdiv (returns.foldl jadd (JsNum.num 0)) (JsNum.num (returns.length : ℚ))
  let variance :=
    jdiv (returns.foldl (fun a b => jadd a (jmul (jsub b mean) (jsub b mean)))
      (JsNum.num 0)) (JsNum.num (returns.length : ℚ))
  jsqrt variance

/-- manageDynamicPositionLevels (lines 217-239), as the pair of level writes
it performs: first the value handed to updateStopLoss (none when that call
is not made), second the value handed to updateTakeProfit.  The two guards
are sequential if-statements in the source, not an else-chain.  The missing
updateStopLoss / updateTakeProfit setters store the given value on the
position — modelled from the spec: RaiseStopLoss(value) and
AdjustTakeProfit(value) (spec section 4.1). -/
def manageDynamicPositionLevels (cfg : TradingConfig) (jlog : ℚ → ℚ → JsNum)
    (jsqrt : JsNum → JsNum) (hist : List ℚ) (p : Position) (currentPrice : ℚ) :
    Option ℚ × Option ℚ :=
  let pnlPercentage := (currentPrice - p.entryPrice) / p.entryPrice * 100
  let slUpdate :=
    if cfg.trailStopActivationPercentage < pnlPercentage then
      let newStopLoss := currentPrice * (1 - cfg.trailStopDistance)
      if p.stopLoss < newStopLoss then some newStopLoss else none
    else none
  let volatility := calculateVolatility jlog jsqrt hist
  let tpUpdate :=
    if jgt volatility (JsNum.num cfg.volatilityThreshold) then
      some (calculateDynamicTakeProfit cfg p (jval volatility))
    else none
  (slUpdate, tpUpdate)

/-- The position value after the level writes of one
manageDynamicPositionLevels evaluation. -/
def applyDynamicLevels (cfg : TradingConfig) (jlog : ℚ → ℚ → JsNum)
    (jsqrt : JsNum → JsNum) (hist : List ℚ) (p : Position) (currentPrice : ℚ) :
    Position :=
  let u := manageDynamicPositionLevels cfg jlog jsqrt hist p currentPrice
  { p with stopLoss := u.1.getD p.stopLoss, takeProfit := u.2.getD p.takeProfit }

/-- The externally visible decisions of one checkPositionStatus evaluation:
either an exit request with its reason, or the level writes of
manageDynamicPositionLevels (both none meaning hold). -/
structure EvalActions where
  exitReason : Option String
  slRaise : Option ℚ
  tpAdjust : Option ℚ
deriving DecidableEq, Repr

/-- checkPositionStatus (lines 195-215): stop-loss check first, then
take-profit, then dynamic management. -/
def checkPositionStatus (cfg : TradingConfig) (jlog : ℚ → ℚ → JsNum)
    (jsqrt : JsNum → JsNum) (hist : List ℚ) (p : Position) (currentPrice : ℚ) :
    EvalActions :=
  if currentPrice ≤ p.stopLoss then
    { exitReason := some "stopLoss", slRaise := none, tpAdjust := none }
  else if p.takeProfit ≤ currentPrice then
    { exitReason := some "takeProfit", slRaise := none, tpAdjust := none }
  else
    let u := manageDynamicPositionLevels cfg jlog jsqrt hist p currentPrice
    { exitReason := none, slRaise := u.1, tpAdjust := u.2 }

/-- Modelled from the spec: adjustPositionLevels, called by validatePosition
(line 135), has no body anywhere in the repository.  Spec sections 4.2 and 7
say levels inverted relative to the current price are auto-corrected against
the current price; the correction recomputes both levels from the current
price with the configured percentages (the formulas used at entry). -/
def adjustPositionLevels (cfg : TradingConfig) (p : Position) (currentPrice : ℚ) :
    Position :=
  { p with
      stopLoss := currentPrice * (1 - cfg.stopLossPercentage),
      takeProfit := currentPrice * (1 + cfg.takeProfitPercentage) }

/-- validatePosition (lines 123-141), level-revalidation branch, run for each
position rehydrated on start.  (The staleness branch calls
updatePositionData, which per spec section 4.2 refreshes stale price data
and writes no stop or target level; it is omitted here.) -/
def validatePosition (cfg : TradingConfig) (p : Position) (currentPrice : ℚ) :
    Position :=
  if currentPrice < p.stopLoss ∨ p.takeProfit < currentPrice then
    adjustPositionLevels cfg p currentPrice
  else p

/-- calculatePositionSize (lines 301-329): balance share scaled by
confidence, Math.min against the two ceilings, then Math.max against the
configured minimum. -/
def calculatePositionSize (cfg : TradingConfig) (balanceInSOL confidence : ℚ) : ℚ :=
  let base := balanceInSOL * cfg.positionSizePercentage * confidence
  let capped :=
    min base (min cfg.maxPositionSizeSOL (balanceInSOL * cfg.maxPositionSizePercentage))
  max capped cfg.minPositionSizeSOL

/-- evaluateTradeOpportunity (lines 260-299), as the entry signal it emits
(none when it returns without emitting).  activeCount is
activePositions.size, confidence the AI score for the token, balanceInSOL
the wallet balance read inside calculatePositionSize. -/
def evaluateTradeOpportunity (cfg : TradingConfig) (activeCount : ℕ)
    (tokenAddress : String) (tokenPrice confidence balanceInSOL now : ℚ) :
    Option TradingSignal :=
  if cfg.maxPositions ≤ activeCount then none
  else if cfg.minConfidenceScore ≤ confidence then
    let positionSize := calculatePositionSize cfg balanceInSOL confidence
    if positionSize = 0 then none
    else some
      { tokenAddress := tokenAddress,
        type := OrderType.entry,
        price := tokenPrice,
        quantity := positionSize,
        confidence := confidence,
        stopLoss := some (calculateStopLoss cfg tokenPrice Direction.long),
        takeProfit := some (calculateTakeProfit cfg tokenPrice Direction.long),
        timestamp := now,
        reason := none }
  else none

/-- JS Map.set over an insertion-ordered association list with unique keys:
a present key (the first and, under the unique-key invariant, only entry)
has its value replaced in place, an absent key is appended. -/
def jsSet {α : Type} (m : List (String × α)) (k : String) (v : α) :
    List (String × α) :=
  match m with
  | [] => [(k, v)]
  | e :: rest => if e.1 = k then (k, v) :: rest else e :: jsSet rest k v

/-- JS Map.delete. -/
def jsDelete {α : Type} (m : List (String × α)) (k : String) :
    List (String × α) :=
  m.filter (fun e => e.1 ≠ k)

/-- JS Map.get. -/
def jsGet {α : Type} (m : List (String × α)) (k : String) : Option α :=
  (m.find? (fun e => e.1 = k)).map Prod.snd

/-- The lifecycle notifications the engine emits. -/
inductive EngineEvent where
  | tradingSignalEmitted (s : TradingSignal)
  | positionOpened (id token : String)
  | positionUpdated (token : String)
  | tradeFailed (s : TradingSignal) (errorMessage : String)
  | positionClosed (id : String) (reason : String)
  | positionForceClosed (id : String)
deriving DecidableEq, Repr

/-- The engine state the claims observe: the in-memory active index keyed by
token address, the durable store of position records keyed by position id
(savePosition / updatePosition), the appended FailedTrade records, the
emitted events, and the counter feeding the uuid generator (the abstraction
of crypto.randomUUID). -/
structure EngineState where
  activePositions : List (String × Position)
  db : List (String × Position)
  failedTrades : List FailedTrade
  events : List EngineEvent
  uuidCounter : ℕ
deriving DecidableEq, Repr

/-- handleSuccessfulTrade (lines 424-483): builds the new Position from the
signal, persists it, registers it under its token address with Map.set
(replacing whatever position that key held), and emits positionOpened.  The
saveTrade history record and the three empty monitoring hooks are omitted.
closePosition routes exit signals through this path as well; for those the
source reads the absent stopLoss / takeProfit signal fields, modelled as
the 0 default, and the riskReward division is total rational division. -/
def handleSuccessfulTrade (uuid : ℕ → String) (now : ℚ) (st : EngineState)
    (signal : TradingSignal) (result : TradeExecutionResult) : EngineState :=
  let sl := signal.stopLoss.getD 0
  let tp := signal.takeProfit.getD 0
  let p : Position :=
    { id := uuid st.uuidCounter,
      tokenAddress := signal.tokenAddress,
      entryPrice := signal.price,
      quantity := signal.quantity,
      stopLoss := sl,
      takeProfit := tp,
      currentPrice := signal.price,
      unrealizedPnL := 0,
      pnlPercentage := 0,
      entryTimestamp := now,
      lastUpdated := now,
      tradeSignature := result.signature.getD "",
      status := PositionStatus.active,
      exitPrice := none,
      exitTimestamp := none,
      realizedPnL := none,
      closeReason := none,
      metadata :=
        { confidenceScore := signal.confidence,
          initialStopLoss := sl,
          initialTakeProfit := tp,
          riskReward := (tp - signal.price) / (signal.price - sl) } }
  { st with
      db := jsSet st.db p.id p,
      activePositions := jsSet st.activePositions p.tokenAddress p,
      events := st.events ++ [EngineEvent.positionOpened p.id p.tokenAddress],
      uuidCounter := st.uuidCounter + 1 }

/-- handleFailedTrade (lines 501-525): appends a FailedTrade built from the
signal and the caught error's message and code, and emits tradeFailed
carrying the same message.  It never touches the active index or any
position record. -/
def handleFailedTrade (now : ℚ) (st : EngineState) (signal : TradingSignal)
    (err : JsError) : EngineState :=
  { st with
      failedTrades := st.failedTrades ++
        [{ tokenAddress := signal.tokenAddress,
           type := signal.type,
           price := signal.price,
           quantity := signal.quantity,
           timestamp := now,
           error := err.message,
           errorCode := err.code }],
      events := st.events ++ [EngineEvent.tradeFailed signal err.message] }

/-- Modelled from the spec: validateTradingSignal, called by executeTrade
(line 334), has no body anywhere in the repository.  Spec section 4.4: the
signal's quantity must lie within the configured min/max bounds and its
confidence must be at least the configured minimum.  A validation failure
throws, which executeTrade's catch turns into a recorded failed trade. -/
def validateTradingSignal (cfg : TradingConfig) (s : TradingSignal) : Bool :=
  decide (cfg.minPositionSizeSOL ≤ s.quantity) &&
  decide (s.quantity ≤ cfg.maxPositionSizeSOL) &&
  decide (cfg.minConfidenceScore ≤ s.confidence)

/-- executeTrade (lines 331-354) as a state transformer; the second component
is the error it rethrows to its caller (none on success).  On a venue
failure it throws TradingError with the fixed message "Trade execution
failed" and the venue error only as the cause, recording the failure via
handleFailedTrade on the way out. -/
def executeTrade (cfg : TradingConfig) (uuid : ℕ → String) (now : ℚ)
    (st : EngineState) (signal : TradingSignal)
    (result : TradeExecutionResult) : EngineState × Option JsError :=
  if validateTradingSignal cfg signal then
    if result.success then
      (handleSuccessfulTrade uuid now st signal result, none)
    else
      let err := mkTradingError "Trade execution failed" result.error
      (handleFailedTrade now st signal err, some err)
  else
    let err := mkTradingError "Invalid trading signal" none
    (handleFailedTrade now st signal err, some err)

/-- The exit signal closePosition builds (lines 535-543): latest price,
position quantity, confidence 1, no stop or target fields. -/
def exitSignal (p : Position) (currentPrice : ℚ) (reason : String) (now : ℚ) :
    TradingSignal :=
  { tokenAddress := p.tokenAddress,
    type := OrderType.exit,
    price := currentPrice,
    quantity := p.quantity,
    confidence := 1,
    stopLoss := none,
    takeProfit := none,
    timestamp := now,
    reason := some reason }

/-- handleSuccessfulClose (lines 565-622): persists the position with status
closed and its realized economics, removes its token from the active index,
and emits positionClosed.  (The saveTrade history record is omitted.) -/
def handleSuccessfulClose (now : ℚ) (st : EngineState) (p : Position)
    (sig : TradingSignal) (reason : String) : EngineState :=
  let realizedPnL := (sig.price - p.entryPrice) * p.quantity
  let pnlPercentage := realizedPnL / (p.entryPrice * p.quantity) * 100
  let closedPosition :=
    { p with
        status := PositionStatus.closed,
        exitPrice := some sig.price,
        exitTimestamp := some now,
        realizedPnL := some realizedPnL,
        pnlPercentage := pnlPercentage,
        closeReason := some reason }
  { st with
      db := jsSet st.db p.id closedPosition,
      activePositions := jsDelete st.activePositions p.tokenAddress,
      events := st.events ++ [EngineEvent.positionClosed p.id reason] }

/-- forceClosePosition (lines 624-649): persists the position with status
force_closed and no execution confirmation, removes its token from the
active index, and emits positionForceClosed. -/
def forceClosePosition (now : ℚ) (st : EngineState) (p : Position) :
    EngineState :=
  let fc :=
    { p with
        status := PositionStatus.force_closed,
        exitTimestamp := some now,
        closeReason := some "force_close" }
  { st with
      db := jsSet st.db p.id fc,
      activePositions := jsDelete st.activePositions p.tokenAddress,
      events := st.events ++ [EngineEvent.positionForceClosed p.id] }

/-- closePosition (lines 527-563).  venue maps the exit signal to the
execution result.  The Bool records whether an error escaped to the caller:
outside shutdown a failed close is rethrown after being recorded; with
reason "shutdown" the catch force-closes the position instead and returns
normally. -/
def closePosition (cfg : TradingConfig) (uuid : ℕ → String)
    (venue : TradingSignal → TradeExecutionResult) (now : ℚ)
    (st : EngineState) (p : Position) (reason : String) (currentPrice : ℚ) :
    EngineState × Bool :=
  let sig := exitSignal p currentPrice reason now
  match executeTrade cfg uuid now st sig (venue sig) with
  | (st1, none) => (handleSuccessfulClose now st1 p sig reason, false)
  | (st1, some _) =>
      if reason = "shutdown" then (forceClosePosition now st1 p, false)
      else (st1, true)

/-- closeAllPositions (lines 651-665): snapshots the active values and closes
each with reason "shutdown".  Each per-position task has its own catch (and
inside closePosition the shutdown catch already force-closes), so one
position's failure never aborts the others; Promise.allSettled joins them.
The fan-out is modelled as a fold over the snapshot — each task writes only
its own token key, so the serialisation order is immaterial. -/
def closeAllPositions (cfg : TradingConfig) (uuid : ℕ → String)
    (venue : TradingSignal → TradeExecutionResult) (priceOf : String → ℚ)
    (now : ℚ) (st : EngineState) : EngineState :=
  (st.activePositions.map Prod.snd).foldl
    (fun acc p =>
      (closePosition cfg uuid venue now acc p "shutdown" (priceOf p.tokenAddress)).1)
    st

/-- Whether one shutdown close attempt settles successfully: the exit signal
passes validation and the venue reports success. -/
def closeSucceeds (cfg : TradingConfig)
    (venue : TradingSignal → TradeExecutionResult) (priceOf : String → ℚ)
    (now : ℚ) (p : Position) : Bool :=
  let sig := exitSignal p (priceOf p.tokenAddress) "shutdown" now
  validateTradingSignal cfg sig && (venue sig).success

/-- The entry flow for one token as wired through the orchestrator:
evaluateTradeOpportunity emits a trading signal, which executeTrade then
settles against the venue result. -/
def openFlow (cfg : TradingConfig) (uuid : ℕ → String) (st : EngineState)
    (tokenAddress : String) (tokenPrice confidence balanceInSOL now : ℚ)
    (result : TradeExecutionResult) : EngineState :=
  match evaluateTradeOpportunity cfg st.activePositions.length tokenAddress
      tokenPrice confidence balanceInSOL now with
  | none => st
  | some sig =>
      (executeTrade cfg uuid now
        { st with events := st.events ++ [EngineEvent.tradingSignalEmitted sig] }
        sig result).1

/-- State of the monitoring scheduler (startPositionMonitoring, lines
143-153): the isRunning flag and the number of monitorPositions rounds
started and not yet joined. -/
structure SchedState where
  isRunning : Bool
  inFlight : ℕ
deriving DecidableEq, Repr

/-- Scheduler events: an interval fire of the setInterval callback, or a
round reaching its Promise.allSettled join (monitorPositions, line 168).
setInterval invokes its async callback on every interval tick regardless of
any still-pending earlier invocation — awaiting inside the callback does not
delay the timer — and the callback's only guard before starting a round is
the isRunning check. -/
inductive SchedEvent where
  | timerFire
  | roundJoin
deriving DecidableEq, Repr

/-- One scheduler transition, read off lines 144-152: a fire starts a round
exactly when isRunning holds (there is no in-flight check); a join retires
one round. -/
def schedStep (s : SchedState) : SchedEvent → SchedState
  | SchedEvent.timerFire =>
      if s.isRunning then { s with inFlight := s.inFlight + 1 } else s
  | SchedEvent.roundJoin => { s with inFlight := s.inFlight - 1 }

/-- A scheduler trace from a given state. -/
def schedRun (s : SchedState) (evs : List SchedEvent) : SchedState :=
  evs.foldl schedStep s

/-- Configuration used in the concrete evaluations below: the config.ts
values, with the trading fields TradingEngine reads but config.ts does not
define given representative values (they are part of the configuration
surface of spec section 6). -/
def cfgEx : TradingConfig :=
  { minConfidenceScore := 17/20,
    stopLossPercentage := 1/5,
    takeProfitPercentage := 2,
    maxPositions := 5,
    maxPositionSizeSOL := 5,
    minPositionSizeSOL := 3,
    positionSizePercentage := 1/100,
    maxPositionSizePercentage := 1/2,
    trailStopActivationPercentage := 5,
    trailStopDistance := 1/50,
    volatilityThreshold := 1/2,
    volatilityTPMultiplier := 1 }

def mdEx : PositionMetadata :=
  { confidenceScore := 9/10,
    initialStopLoss := 90,
    initialTakeProfit := 120,
    riskReward := 2 }

/-- The scenario position of spec section 8: entry 100, quantity 10,
stop 90, target 120. -/
def pEx : Position :=
  { id := "a",
    tokenAddress := "T",
    entryPrice := 100,
    quantity := 10,
    stopLoss := 90,
    takeProfit := 120,
    currentPrice := 100,
    unrealizedPnL := 0,
    pnlPercentage := 0,
    entryTimestamp := 0,
    lastUpdated := 0,
    tradeSignature := "sig1",
    status := PositionStatus.active,
    exitPrice := none,
    exitTimestamp := none,
    realizedPnL := none,
    closeReason := none,
    metadata := mdEx }

/-- Same position with a quantity inside the configured [3, 5] size bounds,
for flows that pass through signal validation. -/
def pEx4 : Position :=
  { pEx with quantity := 4 }

/-- Trivial stand-ins for Math.log and Math.sqrt where the volatility value
is irrelevant to the property (Math.sqrt maps NaN to NaN in JS). -/
def jlogT : ℚ → ℚ → JsNum := fun _ _ => JsNum.nan

def jsqrtT : JsNum → JsNum := fun _ => JsNum.nan

/-- Math.log at the two price ratios of the history [1, 2, 1], to one
decimal place (log 2 is about 0.7; the exact value is immaterial). -/
def jlogEx : ℚ → ℚ → JsNum := fun a b =>
  if a = 2 ∧ b = 1 then JsNum.num (7/10)
  else if a = 1 ∧ b = 2 then JsNum.num (-(7/10))
  else JsNum.nan

/-- Math.sqrt at the variance those returns produce (sqrt 0.49 = 0.7),
NaN-preserving like the JS function. -/
def jsqrtEx : JsNum → JsNum := fun v =>
  if v = JsNum.num (49/100) then JsNum.num (7/10) else JsNum.nan

/-- Deterministic stand-in for crypto.randomUUID. -/
def uuidEx : ℕ → String := fun _ => "uuidB"

def stEx : EngineState :=
  { activePositions := [("T", pEx4)],
    db := [("a", pEx4)],
    failedTrades := [],
    events := [],
    uuidCounter := 0 }

def resOkEx : TradeExecutionResult :=
  { success := true,
    signature := some "sig2",
    error := none,
    timestamp := 0,
    fees := none,
    slippage := none }

/-- A venue that rejects every request with a distinctive error string. -/
def venueFailEx : TradingSignal → TradeExecutionResult := fun _ =>
  { success := false,
    signature := none,
    error := some "slippage tolerance exceeded",
    timestamp := 0,
    fees := none,
    slippage := none }

/-- Scenario E pair: two active positions on distinct tokens. -/
def pExA : Position :=
  { pEx with id := "idA", tokenAddress := "A", quantity := 3 }

def pExB : Position :=
  { pEx with id := "idB", tokenAddress := "B", quantity := 3 }

def stEx7 : EngineState :=
  { activePositions := [("A", pExA), ("B", pExB)],
    db := [("idA", pExA), ("idB", pExB)],
    failedTrades := [],
    events := [],
    uuidCounter := 0 }

/-- A venue that fails exactly the close of token B. -/
def venueEx7 : TradingSignal → TradeExecutionResult := fun s =>
  if s.tokenAddress = "B" then
    { success := false, signature := none, error := some "node timeout",
      timestamp := 0, fees := none, slippage := none }
  else
    { success := true, signature := some "sigX", error := none,
      timestamp := 0, fees := none, slippage := none }

def priceOfEx : String → ℚ := fun _ => 95

theorem jsGet_jsSet_self {α : Type} (m : List (String × α)) (k : String) (v : α) :
    jsGet (jsSet m k v) k = some v := by
  induction m with
  | nil => simp [jsSet, jsGet, List.find?]
  | cons e rest ih =>
    by_cases he : e.1 = k
    · simp [jsSet, jsGet, he, List.find?]
    · simpa [jsSet, jsGet, he, List.find?] using ih

theorem jsGet_jsSet_ne {α : Type} (m : List (String × α)) (k k1 : String) (v : α)
    (h : k1 ≠ k) : jsGet (jsSet m k v) k1 = jsGet m k1 := by
  induction m with
  | nil => simp [jsSet, jsGet, List.find?, Ne.symm h]
  | cons e rest ih =>
    by_cases he : e.1 = k
    · have he1 : ¬ (e.1 = k1) := by
        rw [he]
        exact Ne.symm h
      simp [jsSet, jsGet, he, he1, List.find?, Ne.symm h]
    · by_cases he1 : e.1 = k1
      · simp [jsSet, jsGet, he, he1, List.find?, h]
      · simpa [jsSet, jsGet, he, he1, List.find?] using ih

theorem jsDelete_jsSet_same {α : Type} (m : List (String × α)) (k : String) (v : α) :
    jsDelete (jsSet m k v) k = jsDelete m k := by
  induction m with
  | nil => simp [jsSet, jsDelete]
  | cons e rest ih =>
    by_cases he : e.1 = k
    · simp [jsSet, jsDelete, he]
    · simpa [jsSet, jsDelete, he] using ih

theorem mem_keys_jsSet {α : Type} (m : List (String × α)) (k a : String) (v : α) :
    a ∈ (jsSet m k v).map Prod.fst ↔ a = k ∨ a ∈ m.map Prod.fst := by
  induction m with
  | nil => simp [jsSet]
  | cons e rest ih =>
    by_cases he : e.1 = k
    · constructor
      · intro hmem
        rcases (by simpa [jsSet, he] using hmem : a = k ∨ a ∈ rest.map Prod.fst) with h1 | h1
        · exact Or.inl h1
        · exact Or.inr (by simp [h1])
      · intro hmem
        rcases hmem with h1 | h1
        · simp [jsSet, he, h1]
        · rcases (by simpa using h1 : a = e.1 ∨ a ∈ rest.map Prod.fst) with h2 | h2
          · simp [jsSet, he, h2 ▸ he]
          · simp [jsSet, he, h2]
    · constructor
      · intro hmem
        rcases (by simpa [jsSet, he] using hmem :
            a = e.1 ∨ a ∈ (jsSet rest k v).map Prod.fst) with h1 | h1
        · exact Or.inr (by simp [h1])
        · rcases ih.mp h1 with h2 | h2
          · exact Or.inl h2
          · exact Or.inr (by simp [h2])
      · intro hmem
        have : a = e.1 ∨ (a = k ∨ a ∈ rest.map Prod.fst) := by
          rcases hmem with h1 | h1
          · exact Or.inr (Or.inl h1)
          · rcases (by simpa using h1 : a = e.1 ∨ a ∈ rest.map Prod.fst) with h2 | h2
            · exact Or.inl h2
            · exact Or.inr (Or.inr h2)
        rcases this with h1 | h1
        · simp [jsSet, he, h1]
        · simp [jsSet, he, ih.mpr h1]

theorem keys_nodup_jsSet {α : Type} (m : List (String × α)) (k : String) (v : α)
    (h : (m.map Prod.fst).Nodup) : ((jsSet m k v).map Prod.fst).Nodup := by
  induction m with
  | nil => simp [jsSet]
  | cons e rest ih =>
    rcases (by simpa using h :
        (e.1 ∉ rest.map Prod.fst) ∧ (rest.map Prod.fst).Nodup) with ⟨hnotin, hrest⟩
    by_cases he : e.1 = k
    · have hk : k ∉ rest.map Prod.fst := he ▸ hnotin
      rw [show jsSet (e :: rest) k v = (k, v) :: rest from by simp [jsSet, he]]
      simp only [List.map_cons, List.nodup_cons]
      exact ⟨hk, hrest⟩
    · have hmem : e.1 ∉ (jsSet rest k v).map Prod.fst := by
        rw [mem_keys_jsSet]
        push_neg
        exact ⟨he, hnotin⟩
      rw [show jsSet (e :: rest) k v = e :: jsSet rest k v from by simp [jsSet, he]]
      simp only [List.map_cons, List.nodup_cons]
      exact ⟨hmem, ih hrest⟩

/-- C1: checkPositionStatus decides in priority order with loss-protection
first: a price at or below the stop-loss exits with reason "stopLoss"
(whatever the take-profit level), a price strictly above the stop-loss but
at or above the take-profit exits with reason "takeProfit", and only when
neither threshold is crossed are the dynamic adjustments of
manageDynamicPositionLevels considered. -/
theorem checkPositionStatus_priority_spec (cfg : TradingConfig)
    (jlog : ℚ → ℚ → JsNum) (jsqrt : JsNum → JsNum) (hist : List ℚ)
    (p : Position) (price : ℚ) :
    (price ≤ p.stopLoss →
      checkPositionStatus cfg jlog jsqrt hist p price
        = { exitReason := some "stopLoss", slRaise := none, tpAdjust := none }) ∧
    (p.stopLoss < price → p.takeProfit ≤ price →
      checkPositionStatus cfg jlog jsqrt hist p price
        = { exitReason := some "takeProfit", slRaise := none, tpAdjust := none }) ∧
    (p.stopLoss < price → price < p.takeProfit →
      checkPositionStatus cfg jlog jsqrt hist p price
        = { exitReason := none,
            slRaise := (manageDynamicPositionLevels cfg jlog jsqrt hist p price).1,
            tpAdjust := (manageDynamicPositionLevels cfg jlog jsqrt hist p price).2 }) := by
  refine ⟨?_, ?_, ?_⟩
  · intro h1
    simp [checkPositionStatus, h1]
  · intro h1 h2
    simp [checkPositionStatus, not_le.mpr h1, h2]
  · intro h1 h2
    simp [checkPositionStatus, not_le.mpr h1, not_le.mpr h2]

/-- Witness for C1: scenario A of the spec — price 89 against stop 90,
target 120 — exits with reason "stopLoss". -/
theorem checkPositionStatus_priority_spec_witness :
    checkPositionStatus cfgEx jlogT jsqrtT [] pEx 89
      = { exitReason := some "stopLoss", slRaise := none, tpAdjust := none } :=
  (checkPositionStatus_priority_spec cfgEx jlogT jsqrtT [] pEx 89).1
    (by norm_num [pEx])

/-- C5: after every price observation, the refreshed position satisfies
unrealizedPnL = (currentPrice − entryPrice) × quantity, and (for positive
entry price and quantity) pnlPercentage = unrealizedPnL / (entryPrice ×
quantity) × 100 — the source computes (currentPrice − entryPrice) /
entryPrice × 100, which is the same quantity since the quantity factor
cancels. -/
theorem updatePositionMetrics_pnl_spec (p : Position) (price now : ℚ)
    (he : 0 < p.entryPrice) (hq : 0 < p.quantity) :
    (updatePositionMetrics p price now).unrealizedPnL
      = (price - p.entryPrice) * p.quantity ∧
    (updatePositionMetrics p price now).pnlPercentage
      = (updatePositionMetrics p price now).unrealizedPnL
        / (p.entryPrice * p.quantity) * 100 := by
  constructor
  · rfl
  · show (price - p.entryPrice) / p.entryPrice * 100
      = (price - p.entryPrice) * p.quantity / (p.entryPrice * p.quantity) * 100
    rw [mul_div_mul_right _ _ (ne_of_gt hq)]

/-- Witness for C5 at the scenario position, price 105. -/
theorem updatePositionMetrics_pnl_spec_witness :
    (updatePositionMetrics pEx 105 1).unrealizedPnL
      = (105 - pEx.entryPrice) * pEx.quantity ∧
    (updatePositionMetrics pEx 105 1).pnlPercentage
      = (updatePositionMetrics pEx 105 1).unrealizedPnL
        / (pEx.entryPrice * pEx.quantity) * 100 :=
  updatePositionMetrics_pnl_spec pEx 105 1 (by norm_num [pEx]) (by norm_num [pEx])

/-- C9 counterexample: two interval fires with no join in between — the
realisable trace of a round that outlasts the monitoring interval — leave
two rounds in flight, so a new round does begin before the previous round
has joined (the setInterval callback checks only isRunning, never whether a
round is pending). -/
theorem monitor_rounds_overlap_cex :
    1 < (schedRun { isRunning := true, inFlight := 0 }
          [SchedEvent.timerFire, SchedEvent.timerFire]).inFlight := by
  simp [schedRun, schedStep]

/-- C9 amended: the only suppression the scheduler performs is the isRunning
check — a fire while the engine is stopped starts no round, and a fire
while it runs always starts one more round regardless of how many are
already in flight (there is no re-entrancy guard). -/
theorem timer_fire_guarded_only_by_isRunning (s : SchedState) :
    (s.isRunning = false → schedStep s SchedEvent.timerFire = s) ∧
    (s.isRunning = true →
      (schedStep s SchedEvent.timerFire).inFlight = s.inFlight + 1) := by
  constructor
  · intro h
    simp [schedStep, h]
  · intro h
    simp [schedStep, h]

/-- Witness for the C9 amended theorem: with one round already in flight, a
fire starts a second; with the engine stopped, a fire changes nothing. -/
theorem timer_fire_guarded_only_by_isRunning_witness :
    (schedStep { isRunning := true, inFlight := 1 } SchedEvent.timerFire).inFlight = 2 ∧
    schedStep { isRunning := false, inFlight := 1 } SchedEvent.timerFire
      = { isRunning := false, inFlight := 1 } :=
  ⟨(timer_fire_guarded_only_by_isRunning { isRunning := true, inFlight := 1 }).2 rfl,
   (timer_fire_guarded_only_by_isRunning { isRunning := false, inFlight := 1 }).1 rfl⟩

/-- C10: with fewer than two price samples the log-return list is empty,
calculateVolatility divides the zero sum by the zero length — NaN, not an
error or a default — and the NaN then makes the volatility-threshold
comparison in manageDynamicPositionLevels silently false, so no take-profit
adjustment ever fires off a short history. -/
theorem calculateVolatility_nan_short_history (cfg : TradingConfig)
    (jlog : ℚ → ℚ → JsNum) (jsqrt : JsNum → JsNum) (hist : List ℚ)
    (p : Position) (price : ℚ) (h2 : hist.length < 2)
    (hs : jsqrt JsNum.nan = JsNum.nan) :
    logReturns jlog hist = [] ∧
    calculateVolatility jlog jsqrt hist = JsNum.nan ∧
    (manageDynamicPositionLevels cfg jlog jsqrt hist p price).2 = none := by
  have hret : logReturns jlog hist = [] := by
    match hist with
    | [] => rfl
    | [a] => rfl
    | a :: b :: t =>
      exfalso
      simp only [List.length_cons] at h2
      omega
  have hvol : calculateVolatility jlog jsqrt hist = JsNum.nan := by
    unfold calculateVolatility
    rw [hret]
    simpa [jdiv] using hs
  refine ⟨hret, hvol, ?_⟩
  unfold manageDynamicPositionLevels
  rw [hvol]
  simp [jgt]

/-- Witness for C10: a one-sample history, with NaN-preserving Math.sqrt. -/
theorem calculateVolatility_nan_short_history_witness :
    logReturns jlogT [5] = [] ∧
    calculateVolatility jlogT jsqrtT [5] = JsNum.nan ∧
    (manageDynamicPositionLevels cfgEx jlogT jsqrtT [5] pEx 106).2 = none :=
  calculateVolatility_nan_short_history cfgEx jlogT jsqrtT [5] pEx 106
    (by norm_num) rfl

/-- C2 counterexample: level revalidation on rehydration can lower stopLoss.
The stored stop 90 sits above the current price 80, so validatePosition
corrects the levels against the current price, rewriting stopLoss to
80 × (1 − 0.2) = 64 < 90 — a write that strictly lowers the stop.  (Any
correction restoring stopLoss ≤ currentPrice must lower it in this case,
whatever the exact formula.) -/
theorem validatePosition_lowers_stopLoss_cex :
    (validatePosition cfgEx pEx 80).stopLoss = 64 ∧
    (validatePosition cfgEx pEx 80).stopLoss < pEx.stopLoss := by
  norm_num [validatePosition, adjustPositionLevels, cfgEx, pEx]

/-- C2 amended: the trailing-stop adjustment alone is strictly upward — a
value it hands to updateStopLoss is strictly greater than the current stop,
and the position after one dynamic-management evaluation never carries a
lower stopLoss.  (Revalidation on rehydration can lower the stop, see the
counterexample, so the monotonicity is per engine run, not per lifetime.) -/
theorem trailing_stop_raises_only (cfg : TradingConfig) (jlog : ℚ → ℚ → JsNum)
    (jsqrt : JsNum → JsNum) (hist : List ℚ) (p : Position) (price : ℚ) :
    p.stopLoss ≤ (applyDynamicLevels cfg jlog jsqrt hist p price).stopLoss ∧
    (∀ v, (manageDynamicPositionLevels cfg jlog jsqrt hist p price).1 = some v →
      p.stopLoss < v) := by
  constructor
  · unfold applyDynamicLevels manageDynamicPositionLevels
    dsimp only
    split_ifs with h1 h2
    · simpa using le_of_lt h2
    · simp
    · simp
  · intro v hv
    unfold manageDynamicPositionLevels at hv
    dsimp only at hv
    split_ifs at hv with h1 h2
    · rw [Option.some_inj] at hv
      exact hv ▸ h2

/-- Witness for the C2 amended theorem: at price 106 the trail fires and the
stop written, 103.88, is strictly above the old stop 90. -/
theorem trailing_stop_raises_only_witness : pEx.stopLoss < 2597/25 :=
  (trailing_stop_raises_only cfgEx jlogT jsqrtT [] pEx 106).2 (2597/25) (by
    norm_num [manageDynamicPositionLevels, calculateVolatility, logReturns,
      jdiv, jgt, cfgEx, pEx, jlogT, jsqrtT])

/-- C3 counterexample: one evaluation of one position in one tick applies
BOTH a trailing stop-loss raise and a volatility take-profit adjustment: at
price 106 the trail fires (pnl 6% above the 5% activation, 103.88 > 90) and
the history [1, 2, 1] yields volatility 0.7 above the 0.5 threshold, and the
two guards in manageDynamicPositionLevels are independent sequential ifs. -/
theorem dynamic_levels_both_adjust_cex :
    (checkPositionStatus cfgEx jlogEx jsqrtEx [1, 2, 1] pEx 106).slRaise
      = some (2597/25) ∧
    (checkPositionStatus cfgEx jlogEx jsqrtEx [1, 2, 1] pEx 106).tpAdjust
      = some 510 := by
  norm_num [checkPositionStatus, manageDynamicPositionLevels,
    calculateVolatility, logReturns, calculateDynamicTakeProfit, List.foldl,
    jdiv, jadd, jsub, jmul, jgt, jval, cfgEx, pEx, jlogEx, jsqrtEx]

/-- C3 amended: an exit is mutually exclusive with the adjustments — when
checkPositionStatus requests an exit it applies no level write — but the
stop raise and the take-profit adjustment are not mutually exclusive with
each other (see the counterexample). -/
theorem exit_excludes_adjustments (cfg : TradingConfig) (jlog : ℚ → ℚ → JsNum)
    (jsqrt : JsNum → JsNum) (hist : List ℚ) (p : Position) (price : ℚ)
    (r : String)
    (h : (checkPositionStatus cfg jlog jsqrt hist p price).exitReason = some r) :
    (checkPositionStatus cfg jlog jsqrt hist p price).slRaise = none ∧
    (checkPositionStatus cfg jlog jsqrt hist p price).tpAdjust = none := by
  unfold checkPositionStatus at h ⊢
  split_ifs at h ⊢ with h1 h2
  · exact ⟨rfl, rfl⟩
  · exact ⟨rfl, rfl⟩

/-- Witness for the C3 amended theorem at the stop-loss exit of scenario A. -/
theorem exit_excludes_adjustments_witness :
    (checkPositionStatus cfgEx jlogT jsqrtT [] pEx 89).slRaise = none ∧
    (checkPositionStatus cfgEx jlogT jsqrtT [] pEx 89).tpAdjust = none :=
  exit_excludes_adjustments cfgEx jlogT jsqrtT [] pEx 89 "stopLoss" (by
    norm_num [checkPositionStatus, cfgEx, pEx])

/-- C8 counterexample: a computed size below the configured minimum does NOT
suppress the trade.  With balance 10, fraction 1%, confidence 0.9, the
confidence-scaled and upper-clamped size is 0.09, far below the minimum 3 —
yet calculatePositionSize raises it to 3 (Math.max with the minimum) and
evaluateTradeOpportunity emits an entry signal sized 3. -/
theorem below_min_size_not_suppressed_cex :
    min (10 * cfgEx.positionSizePercentage * (9/10))
        (min cfgEx.maxPositionSizeSOL (10 * cfgEx.maxPositionSizePercentage))
      < cfgEx.minPositionSizeSOL ∧
    (evaluateTradeOpportunity cfgEx 0 "T" 2 (9/10) 10 0).map TradingSignal.quantity
      = some 3 := by
  constructor
  · norm_num [cfgEx]
  · norm_num [evaluateTradeOpportunity, calculatePositionSize, calculateStopLoss,
      calculateTakeProfit, cfgEx, min_def, max_def]

/-- C8 amended: sizing matches the claim up to the lower bound — base size =
balance × fraction × confidence clamped above by min(maxPositionSize,
balance × maxPositionFraction) — but a result below the configured minimum
is clamped UP to minPositionSize rather than suppressed: whenever the
confidence gate and the position-count gate pass and the configured minimum
is positive, an entry signal is emitted, with quantity exactly the clamped
size (which is at least the minimum).  The only suppression in the code is
the positionSize === 0 check. -/
theorem position_size_clamped_emits_signal (cfg : TradingConfig)
    (activeCount : ℕ) (token : String) (price conf bal now : ℚ)
    (hcount : activeCount < cfg.maxPositions)
    (hconf : cfg.minConfidenceScore ≤ conf)
    (hmin : 0 < cfg.minPositionSizeSOL) :
    ∃ s, evaluateTradeOpportunity cfg activeCount token price conf bal now = some s ∧
      s.quantity = calculatePositionSize cfg bal conf ∧
      cfg.minPositionSizeSOL ≤ s.quantity := by
  have hge : cfg.minPositionSizeSOL ≤ calculatePositionSize cfg bal conf := by
    unfold calculatePositionSize
    exact le_max_right _ _
  have hne : calculatePositionSize cfg bal conf ≠ 0 :=
    (lt_of_lt_of_le hmin hge).ne'
  unfold evaluateTradeOpportunity
  rw [if_neg (not_le.mpr hcount), if_pos hconf, if_neg hne]
  exact ⟨_, rfl, rfl, hge⟩

/-- Witness for the C8 amended theorem at the counterexample numbers. -/
theorem position_size_clamped_emits_signal_witness :
    ∃ s, evaluateTradeOpportunity cfgEx 0 "T" 2 (9/10) 10 0 = some s ∧
      s.quantity = calculatePositionSize cfgEx 10 (9/10) ∧
      cfgEx.minPositionSizeSOL ≤ s.quantity :=
  position_size_clamped_emits_signal cfgEx 0 "T" 2 (9/10) 10 0
    (by norm_num [cfgEx]) (by norm_num [cfgEx]) (by norm_num [cfgEx])

/-- C4 counterexample: opening a second entry for a token that already has an
active position is NOT rejected — evaluateTradeOpportunity performs no
per-instrument check (only the global position-count cap) and a successful
second trade replaces the existing position in the index: before the flow
the index maps token T to the position with id "a"; after it, to a freshly
created position with id "uuidB", and a positionOpened event was emitted. -/
theorem second_entry_replaces_position_cex :
    (jsGet stEx.activePositions "T").map Position.id = some "a" ∧
    (jsGet (openFlow cfgEx uuidEx stEx "T" 2 (9/10) 10 0 resOkEx).activePositions
        "T").map Position.id = some "uuidB" ∧
    ("uuidB" : String) ≠ "a" ∧
    EngineEvent.positionOpened "uuidB" "T"
      ∈ (openFlow cfgEx uuidEx stEx "T" 2 (9/10) 10 0 resOkEx).events := by
  refine ⟨by norm_num [jsGet, stEx, pEx4, pEx, List.find?], ?_, by decide, ?_⟩ <;>
    norm_num [openFlow, evaluateTradeOpportunity, calculatePositionSize,
      calculateStopLoss, calculateTakeProfit, executeTrade, validateTradingSignal,
      handleSuccessfulTrade, jsSet, jsGet, List.find?, min_def, max_def,
      cfgEx, stEx, pEx4, pEx, uuidEx, resOkEx]

/-- C4 amended: the in-memory active index does keep at most one position
per instrument — it is a map keyed by token address, and registering a
position preserves key uniqueness — but a second entry for an instrument
with an active position is not rejected: the new position replaces the
existing one under that key (see the counterexample). -/
theorem active_index_unique_keys (uuid : ℕ → String) (now : ℚ)
    (st : EngineState) (signal : TradingSignal) (result : TradeExecutionResult)
    (h : (st.activePositions.map Prod.fst).Nodup) :
    (((handleSuccessfulTrade uuid now st signal result).activePositions).map
      Prod.fst).Nodup := by
  unfold handleSuccessfulTrade
  exact keys_nodup_jsSet _ _ _ h

/-- Witness for the C4 amended theorem on the one-entry index. -/
theorem active_index_unique_keys_witness :
    (((handleSuccessfulTrade uuidEx 0 stEx
        (exitSignal pEx4 95 "manual" 0) resOkEx).activePositions).map
      Prod.fst).Nodup :=
  active_index_unique_keys uuidEx 0 stEx (exitSignal pEx4 95 "manual" 0) resOkEx
    (by norm_num [stEx])

/-- C6 amended: for every exit attempt outside shutdown whose venue reports
failure, a FailedTrade is persisted and tradeFailed published, and the
position is untouched — still in the active index, no status write — but
the persisted record and the event carry the TradingError wrapper message
"Trade execution failed" with no error code, not the venue's error string,
which survives only in the never-persisted originalError field; the error
is rethrown to the monitoring round. -/
theorem failed_close_keeps_position_active (cfg : TradingConfig)
    (uuid : ℕ → String) (venue : TradingSignal → TradeExecutionResult)
    (now : ℚ) (st : EngineState) (p : Position) (reason : String) (price : ℚ)
    (hreason : reason ≠ "shutdown")
    (hvalid : validateTradingSignal cfg (exitSignal p price reason now) = true)
    (hfail : (venue (exitSignal p price reason now)).success = false) :
    (closePosition cfg uuid venue now st p reason price).1.activePositions
      = st.activePositions ∧
    (closePosition cfg uuid venue now st p reason price).1.db = st.db ∧
    (closePosition cfg uuid venue now st p reason price).1.failedTrades
      = st.failedTrades ++
        [{ tokenAddress := p.tokenAddress, type := OrderType.exit,
           price := price, quantity := p.quantity, timestamp := now,
           error := "Trade execution failed", errorCode := none }] ∧
    (closePosition cfg uuid venue now st p reason price).1.events
      = st.events ++ [EngineEvent.tradeFailed (exitSignal p price reason now)
          "Trade execution failed"] ∧
    (closePosition cfg uuid venue now st p reason price).2 = true := by
  simp only [closePosition, executeTrade, hvalid, hfail, hreason, mkTradingError,
    handleFailedTrade, if_true, if_false, Bool.false_eq_true, ite_false]
  simp [hreason, exitSignal]

/-- Witness for the C6 amended theorem: a venue-rejected take-profit exit. -/
theorem failed_close_keeps_position_active_witness :
    (closePosition cfgEx uuidEx venueFailEx 0 stEx pEx4 "takeProfit" 125).1.activePositions
      = stEx.activePositions ∧
    (closePosition cfgEx uuidEx venueFailEx 0 stEx pEx4 "takeProfit" 125).1.db
      = stEx.db ∧
    (closePosition cfgEx uuidEx venueFailEx 0 stEx pEx4 "takeProfit" 125).1.failedTrades
      = stEx.failedTrades ++
        [{ tokenAddress := pEx4.tokenAddress, type := OrderType.exit,
           price := 125, quantity := pEx4.quantity, timestamp := 0,
           error := "Trade execution failed", errorCode := none }] ∧
    (closePosition cfgEx uuidEx venueFailEx 0 stEx pEx4 "takeProfit" 125).1.events
      = stEx.events ++ [EngineEvent.tradeFailed (exitSignal pEx4 125 "takeProfit" 0)
          "Trade execution failed"] ∧
    (closePosition cfgEx uuidEx venueFailEx 0 stEx pEx4 "takeProfit" 125).2 = true :=
  failed_close_keeps_position_active cfgEx uuidEx venueFailEx 0 stEx pEx4
    "takeProfit" 125 (by decide)
    (by norm_num [validateTradingSignal, exitSignal, pEx4, pEx, cfgEx]) rfl

/-- C6 counterexample: the persisted FailedTrade does NOT carry the venue's
error.  The venue rejects with "slippage tolerance exceeded", but the
record persisted for the failed stop-loss exit carries the TradingError
wrapper message "Trade execution failed" and an undefined errorCode; the
venue string was only on the unpersisted originalError of the thrown
error. -/
theorem failed_close_records_wrapper_message_cex :
    (venueFailEx (exitSignal pEx4 89 "stopLoss" 0)).error
      = some "slippage tolerance exceeded" ∧
    ((closePosition cfgEx uuidEx venueFailEx 0 stEx pEx4 "stopLoss" 89).1.failedTrades.map
      FailedTrade.error) = ["Trade execution failed"] ∧
    ((closePosition cfgEx uuidEx venueFailEx 0 stEx pEx4 "stopLoss" 89).1.failedTrades.map
      FailedTrade.errorCode) = [none] ∧
    ("Trade execution failed" : String) ≠ "slippage tolerance exceeded" := by
  refine ⟨rfl, ?_, ?_, by decide⟩ <;>
    norm_num [closePosition, executeTrade, validateTradingSignal, exitSignal,
      handleFailedTrade, mkTradingError, cfgEx, stEx, pEx4, pEx, venueFailEx,
      (show ¬(("stopLoss" : String) = "shutdown") from by decide)]

theorem closePosition_shutdown_active (cfg : TradingConfig) (uuid : ℕ → String)
    (venue : TradingSignal → TradeExecutionResult) (now : ℚ) (st : EngineState)
    (p : Position) (price : ℚ) :
    ((closePosition cfg uuid venue now st p "shutdown" price).1).activePositions
      = jsDelete st.activePositions p.tokenAddress := by
  cases hv : validateTradingSignal cfg (exitSignal p price "shutdown" now) with
  | false =>
    simp only [closePosition, executeTrade, hv, Bool.false_eq_true, ite_false]
    simp [handleFailedTrade, forceClosePosition]
  | true =>
    cases hs : (venue (exitSignal p price "shutdown" now)).success with
    | false =>
      simp only [closePosition, executeTrade, hv, hs, Bool.false_eq_true,
        ite_false, ite_true]
      simp [handleFailedTrade, forceClosePosition]
    | true =>
      simp only [closePosition, executeTrade, hv, hs, ite_true]
      simp [handleSuccessfulTrade, handleSuccessfulClose, exitSignal,
        jsDelete_jsSet_same]

theorem closePosition_shutdown_db_status (cfg : TradingConfig)
    (uuid : ℕ → String) (venue : TradingSignal → TradeExecutionResult)
    (now : ℚ) (st : EngineState) (p : Position) (price : ℚ) :
    (jsGet ((closePosition cfg uuid venue now st p "shutdown" price).1).db
        p.id).map Position.status
      = some (if validateTradingSignal cfg (exitSignal p price "shutdown" now)
                && (venue (exitSignal p price "shutdown" now)).success
          then PositionStatus.closed else PositionStatus.force_closed) := by
  cases hv : validateTradingSignal cfg (exitSignal p price "shutdown" now) with
  | false =>
    simp only [closePosition, executeTrade, hv, Bool.false_eq_true, ite_false,
      Bool.false_and]
    simp [handleFailedTrade, forceClosePosition, jsGet_jsSet_self]
  | true =>
    cases hs : (venue (exitSignal p price "shutdown" now)).success with
    | false =>
      simp only [closePosition, executeTrade, hv, hs, Bool.false_eq_true,
        ite_false, ite_true, Bool.true_and]
      simp [handleFailedTrade, forceClosePosition, jsGet_jsSet_self]
    | true =>
      simp only [closePosition, executeTrade, hv, hs, ite_true, Bool.true_and]
      simp [handleSuccessfulTrade, handleSuccessfulClose, jsGet_jsSet_self]

theorem closePosition_shutdown_db_frame (cfg : TradingConfig)
    (uuid : ℕ → String) (venue : TradingSignal → TradeExecutionResult)
    (now : ℚ) (st : EngineState) (p : Position) (price : ℚ) (id1 : String)
    (hne : id1 ≠ p.id) (hu : ∀ n, id1 ≠ uuid n) :
    jsGet ((closePosition cfg uuid venue now st p "shutdown" price).1).db id1
      = jsGet st.db id1 := by
  cases hv : validateTradingSignal cfg (exitSignal p price "shutdown" now) with
  | false =>
    simp only [closePosition, executeTrade, hv, Bool.false_eq_true, ite_false]
    simp [handleFailedTrade, forceClosePosition, jsGet_jsSet_ne _ _ _ _ hne]
  | true =>
    cases hs : (venue (exitSignal p price "shutdown" now)).success with
    | false =>
      simp only [closePosition, executeTrade, hv, hs, Bool.false_eq_true,
        ite_false, ite_true]
      simp [handleFailedTrade, forceClosePosition, jsGet_jsSet_ne _ _ _ _ hne]
    | true =>
      simp only [closePosition, executeTrade, hv, hs, ite_true]
      simp [handleSuccessfulTrade, handleSuccessfulClose,
        jsGet_jsSet_ne _ _ _ _ hne, jsGet_jsSet_ne _ _ _ _ (hu st.uuidCounter)]

theorem foldClose_active (cfg : TradingConfig) (uuid : ℕ → String)
    (venue : TradingSignal → TradeExecutionResult) (priceOf : String → ℚ)
    (now : ℚ) (ps : List Position) :
    ∀ st : EngineState,
      (ps.foldl (fun acc p => (closePosition cfg uuid venue now acc p "shutdown"
          (priceOf p.tokenAddress)).1) st).activePositions
        = ps.foldl (fun m p => jsDelete m p.tokenAddress) st.activePositions := by
  induction ps with
  | nil => intro st; rfl
  | cons p rest ih =>
    intro st
    rw [List.foldl_cons, List.foldl_cons, ih, closePosition_shutdown_active]

theorem foldClose_db_frame (cfg : TradingConfig) (uuid : ℕ → String)
    (venue : TradingSignal → TradeExecutionResult) (priceOf : String → ℚ)
    (now : ℚ) (ps : List Position) :
    ∀ (st : EngineState) (id1 : String),
      (∀ p1 ∈ ps, id1 ≠ p1.id) → (∀ n, id1 ≠ uuid n) →
      jsGet ((ps.foldl (fun acc p => (closePosition cfg uuid venue now acc p
          "shutdown" (priceOf p.tokenAddress)).1) st).db) id1
        = jsGet st.db id1 := by
  induction ps with
  | nil => intro st id1 _ _; rfl
  | cons p rest ih =>
    intro st id1 hids hu
    rw [List.foldl_cons,
      ih _ id1 (fun q hq => hids q (List.mem_cons_of_mem p hq)) hu,
      closePosition_shutdown_db_frame cfg uuid venue now st p
        (priceOf p.tokenAddress) id1 (hids p (List.mem_cons_self p rest)) hu]

theorem foldClose_db_status (cfg : TradingConfig) (uuid : ℕ → String)
    (venue : TradingSignal → TradeExecutionResult) (priceOf : String → ℚ)
    (now : ℚ) (ps : List Position) :
    ∀ st : EngineState,
      (ps.map Position.id).Nodup →
      (∀ p1 ∈ ps, ∀ n, p1.id ≠ uuid n) →
      ∀ p1 ∈ ps,
        (jsGet ((ps.foldl (fun acc p => (closePosition cfg uuid venue now acc p
            "shutdown" (priceOf p.tokenAddress)).1) st).db) p1.id).map
          Position.status
          = some (if closeSucceeds cfg venue priceOf now p1
              then PositionStatus.closed else PositionStatus.force_closed) := by
  induction ps with
  | nil => intro st _ _ p1 h; cases h
  | cons p rest ih =>
    intro st hids hu p1 hp1
    rw [List.foldl_cons]
    rcases List.mem_cons.mp hp1 with h1 | h1
    · subst h1
      have hfresh : ∀ q ∈ rest, p1.id ≠ q.id := by
        simp only [List.map_cons, List.nodup_cons] at hids
        intro q hq hqe
        exact hids.1 (hqe.symm ▸ List.mem_map_of_mem Position.id hq)
      rw [foldClose_db_frame cfg uuid venue priceOf now rest _ p1.id hfresh
        (hu p1 (List.mem_cons_self p1 rest)),
        closePosition_shutdown_db_status]
      rfl
    · exact ih _ (List.Nodup.of_cons hids)
        (fun q hq => hu q (List.mem_cons_of_mem p hq)) p1 h1

theorem fold_delete_covered_nil (ps : List Position) :
    ∀ m : List (String × Position),
      (∀ e ∈ m, ∃ p1 ∈ ps, p1.tokenAddress = e.1) →
      ps.foldl (fun acc p => jsDelete acc p.tokenAddress) m = [] := by
  induction ps with
  | nil =>
    intro m h
    match m with
    | [] => rfl
    | e :: r =>
      rcases h e (List.mem_cons_self e r) with ⟨p1, hp1, _⟩
      cases hp1
  | cons p rest ih =>
    intro m h
    rw [List.foldl_cons]
    apply ih
    intro e he
    have hem : e ∈ m ∧ ¬ e.1 = p.tokenAddress := by
      simpa [jsDelete, List.mem_filter] using he
    rcases h e hem.1 with ⟨p1, hp1, hkey⟩
    rcases List.mem_cons.mp hp1 with h2 | h2
    · exact absurd (h2 ▸ hkey) (fun hc => hem.2 hc.symm)
    · exact ⟨p1, h2, hkey⟩

/-- C7: a liquidate-on-shutdown stop closes every active position
independently, with failures isolated per position: after closeAllPositions
the active index is empty, and each snapshotted position's durable record
ends with status closed when its own close attempt settled and force_closed
when it did not — one position's failure never changes another's outcome.
Hypotheses: the index maps each token to a position carrying that token
(the engine only ever stores positions under their own address), position
ids are pairwise distinct, and the fresh-uuid generator never collides with
an existing id. -/
theorem shutdown_closes_all_isolated (cfg : TradingConfig) (uuid : ℕ → String)
    (venue : TradingSignal → TradeExecutionResult) (priceOf : String → ℚ)
    (now : ℚ) (st : EngineState)
    (hkeys : ∀ e ∈ st.activePositions, e.2.tokenAddress = e.1)
    (hids : ((st.activePositions.map Prod.snd).map Position.id).Nodup)
    (hu : ∀ p1 ∈ st.activePositions.map Prod.snd, ∀ n, p1.id ≠ uuid n) :
    (closeAllPositions cfg uuid venue priceOf now st).activePositions = [] ∧
    ∀ p1 ∈ st.activePositions.map Prod.snd,
      (jsGet (closeAllPositions cfg uuid venue priceOf now st).db p1.id).map
        Position.status
        = some (if closeSucceeds cfg venue priceOf now p1
            then PositionStatus.closed else PositionStatus.force_closed) := by
  constructor
  · unfold closeAllPositions
    rw [foldClose_active]
    apply fold_delete_covered_nil
    intro e he
    exact ⟨e.2, List.mem_map_of_mem _ he, hkeys e he⟩
  · intro p1 hp1
    unfold closeAllPositions
    exact foldClose_db_status cfg uuid venue priceOf now _ st hids hu p1 hp1

/-- Witness for C7, scenario E: two active positions A and B, the venue
failing only B's close — A ends closed, B ends force_closed, and the active
index is empty. -/
theorem shutdown_closes_all_isolated_witness :
    (closeAllPositions cfgEx uuidEx venueEx7 priceOfEx 0 stEx7).activePositions = [] ∧
    (jsGet (closeAllPositions cfgEx uuidEx venueEx7 priceOfEx 0 stEx7).db "idA").map
      Position.status = some PositionStatus.closed ∧
    (jsGet (closeAllPositions cfgEx uuidEx venueEx7 priceOfEx 0 stEx7).db "idB").map
      Position.status = some PositionStatus.force_closed := by
  have h := shutdown_closes_all_isolated cfgEx uuidEx venueEx7 priceOfEx 0 stEx7
    (by simp [stEx7, pExA, pExB, pEx])
    (by simp [stEx7, pExA, pExB, pEx])
    (by simp [stEx7, pExA, pExB, pEx, uuidEx])
  have hsA : closeSucceeds cfgEx venueEx7 priceOfEx 0 pExA = true := by
    norm_num [closeSucceeds, validateTradingSignal, exitSignal, venueEx7,
      priceOfEx, pExA, pEx, cfgEx,
      (show ¬(("A" : String) = "B") from by decide)]
  have hsB : closeSucceeds cfgEx venueEx7 priceOfEx 0 pExB = false := by
    norm_num [closeSucceeds, validateTradingSignal, exitSignal, venueEx7,
      priceOfEx, pExB, pEx, cfgEx]
  refine ⟨h.1, ?_, ?_⟩
  · have hA := h.2 pExA (by simp [stEx7])
    rw [hsA] at hA
    simpa [pExA, pEx] using hA
  · have hB := h.2 pExB (by simp [stEx7])
    rw [hsB] at hB
    simpa [pExB, pEx] using hB
